import Mathlib

/-!
# Verification of the GAS baseline-fitting module (`GAS/first_look.py`)

Shallow embedding of the cube baseline-fitting code: the per-spectrum fit
function produced by `blfunc_generator`, the cube driver `baseline_cube`,
and the mask construction inside the driver function `baseline`.

Modelling conventions:
* A floating-point sample is a `Val`: a finite rational, NaN, `+Inf` or
  `-Inf`.  `np.isfinite` is true exactly on finite values; `np.isnan`
  exactly on NaN.  Rounding of finite values is abstracted away
  (finite arithmetic is exact rational arithmetic), so `astype` casts
  are value-preserving.
* Fallible code returns `Except BLErr`; a raised Python exception is an
  `Except.error`.
* `np.polyfit` is an external library call treated as a black box: the
  definitions are parametrised by an arbitrary `Polyfit` function, and
  `np.polyval` is Horner evaluation of a highest-degree-first
  coefficient list, as in numpy.
* The source is Python-2-era code (`clobber=`, generator argument to
  `np.hstack`), so `sampling/2` at line 55/73 is integer floor division.
* `pyspeckit.parallel_map` is modelled by its contract: an
  index-preserving map whose results are collected by input index; a
  worker exception propagates (first one in index order).
-/

set_option autoImplicit false

namespace GAS

/-- A floating-point sample value: finite (exact), NaN, or an infinity. -/
inductive Val where
  | fin (q : ℚ)
  | nan
  | pinf
  | ninf
  deriving DecidableEq, Repr, Inhabited

namespace Val

/-- Embedding of `np.isfinite`: true exactly on finite values (false on NaN and ±Inf). -/
def isfinite : Val → Bool
  | .fin _ => true
  | _ => false

/-- Embedding of `np.isnan`: true exactly on NaN. -/
def isnan : Val → Bool
  | .nan => true
  | _ => false

/-- The rational carried by a finite value. -/
def toQ : Val → Option ℚ
  | .fin q => some q
  | _ => none

/-- IEEE-style subtraction on sample values (finite arithmetic exact). -/
def sub : Val → Val → Val
  | .nan, _ => .nan
  | _, .nan => .nan
  | .fin a, .fin b => .fin (a - b)
  | .fin _, .pinf => .ninf
  | .fin _, .ninf => .pinf
  | .pinf, .pinf => .nan
  | .pinf, _ => .pinf
  | .ninf, .ninf => .nan
  | .ninf, _ => .ninf

end Val

/-- A raised Python exception, by class (and message where the code
supplies one). `nameError` is raised when an undefined identifier is
evaluated. -/
inductive BLErr where
  | nameError
  | typeError (msg : String)
  | valueError (msg : String)
  deriving DecidableEq, Repr

/-- A numpy dtype (only the distinctions the code tests). -/
inductive DType where
  | dtBool
  | dtFloat32
  | dtFloat64
  deriving DecidableEq, Repr

/-- The external `np.polyfit` collaborator: x-values, y-values and the
polynomial order, giving a coefficient list (highest degree first). -/
def Polyfit : Type := List ℚ → List ℚ → ℕ → List ℚ

/-- Embedding of `np.polyval(coeffs, xv)`: Horner evaluation, coefficients given
highest degree first. -/
def polyval (coeffs : List ℚ) (xv : ℚ) : ℚ :=
  coeffs.foldl (fun acc c => acc * xv + c) 0

/-- Python extended slice `l[start:stop:step]` for a non-negative `start`,
`stop` and positive `step`: the elements at indices `start`, `start+step`,
… below `min stop l.length`, in order. -/
def pySlice {α : Type} (l : List α) (start stop step : ℕ) : List α :=
  (List.range stop).filterMap
    (fun i => if start ≤ i ∧ (i - start) % step = 0 then l[i]? else none)

/-- Embedding of `np.mean(groups, axis=0)` for equally long rows: the element-wise
mean of the rows (length taken from the first row). -/
def meanCols (groups : List (List ℚ)) : List ℚ :=
  (List.range (groups.headD []).length).map
    (fun i => (groups.map (fun g => g.getD i 0)).sum / (groups.length : ℚ))

/-- Embedding of `yfit[mask]` where `mask = np.isfinite(yfit)`: the finite samples of
the masked spectrum, in order. -/
def goodVals (yfit : List Val) : List ℚ :=
  yfit.filterMap Val.toQ

/-- Embedding of `x[mask]`: the x-axis values at the positions where the masked
spectrum is finite. -/
def goodXs (x : List ℚ) (yfit : List Val) : List ℚ :=
  ((x.zip yfit).filter (fun p => p.2.isfinite)).map Prod.fst

/-- Embedding of `ngood = np.count_nonzero(mask)` with `mask = np.isfinite(yfit)`. -/
def ngoodOf (yfit : List Val) : ℕ :=
  (yfit.filter (fun v => v.isfinite)).length

/-- The per-spectrum fit function `blfunc` produced by
`blfunc_generator` (`first_look.py` lines 37-81), applied to the pair
`(yfit, yreal)` with x-axis `x`.

The fit inputs reaching `blfunc` from `baseline_cube` are plain
(NaN-masked) arrays without a `.mask` attribute, so the good-sample mask
is `np.isfinite(yfit)` (line 42).

In the polynomial branch, `sampling/2` (line 55) is Python 2 integer
floor division, and `np.polyval(...).astype(yreal.dtype)` preserves
values in this model (rounding abstracted).

In the spline branch, line 59 reads `elif splineorder is not None and
scipyOK:`; the name `scipyOK` is defined nowhere in the module (nor is
`UnivariateSpline` imported), so whenever `polyorder is None` and a
spline order is supplied, evaluating the condition raises `NameError`
and lines 60-77 are unreachable. -/
def blfunc (pf : Polyfit) (polyorder splineorder : Option ℕ) (sampling : ℕ)
    (x : List ℚ) (yfit yreal : List Val) : Except BLErr (List Val) :=
  let ngood := ngoodOf yfit
  match polyorder with
  | some p =>
      if ngood ≤ p then .ok yreal
      else
        let good := goodVals yfit
        let endpoint := ngood - ngood % sampling
        let y := meanCols ((List.range sampling).map
          (fun ii => pySlice good ii endpoint sampling))
        let polypars := pf (pySlice (goodXs x yfit) (sampling / 2) endpoint sampling) y p
        .ok (List.zipWith Val.sub yreal (x.map (fun xv => Val.fin (polyval polypars xv))))
  | none =>
      match splineorder with
      | some _ => .error BLErr.nameError
      | none => .error (BLErr.valueError "Must provide polyorder or splineorder")

/-- A 3-D numpy cube of shape `(S, Y, X)` in C order: flat index
`s*(Y*X) + y*X + x`. -/
structure Cube where
  S : ℕ
  Y : ℕ
  X : ℕ
  data : List Val
  deriving DecidableEq, Repr

/-- A cube mask array: carries its dtype (the code checks it), its shape
and its boolean data in the same C order as the cube. -/
structure Mask where
  dtype : DType
  S : ℕ
  Y : ℕ
  X : ℕ
  data : List Bool
  deriving DecidableEq, Repr

/-- Embedding of `x = np.arange(cube.shape[0], dtype=cube.dtype)` (line 101): the
values `0, …, S-1` (exact in this model). -/
def xAxis (c : Cube) : List ℚ :=
  (List.range c.S).map (Nat.cast : ℕ → ℚ)

/-- Embedding of `cube.reshape(S, Y*X).T` on a C-ordered cube: row `j` (one per
spatial pixel, `j = y*X + x`) is the spectrum `[d[s*P + j] for s < S]`. -/
def rows (S P : ℕ) (d : List Val) : List (List Val) :=
  (List.range P).map (fun j => (List.range S).map (fun s => d.getD (s * P + j) Val.nan))

/-- Embedding of `masked_cube = cube.copy(); masked_cube[cubemask] = np.nan`
(lines 120-121): a fresh array, NaN where the mask is True, the original
sample elsewhere. -/
def maskedData (c : Cube) (m : Mask) : List Val :=
  List.zipWith (fun v b => if b then Val.nan else v) c.data m.data

/-- Embedding of `np.array(results).T.reshape(cube.shape)` (lines 125-126): rebuild a
cube of shape `(S, Y, X)` from the per-pixel result rows, pixel `j`
supplying the samples at flat indices `s*(Y*X) + j`. -/
def reassemble (S Y X : ℕ) (r : List (List Val)) : Cube :=
  ⟨S, Y, X, (List.range (S * (Y * X))).map
    (fun i => (r.getD (i % (Y * X)) []).getD (i / (Y * X)) Val.nan)⟩

/-- Collect a list of fallible results, propagating the first error (in
index order) — the observable behaviour of mapping a raising function
over a sequence. -/
def exList {α : Type} : List (Except BLErr α) → Except BLErr (List α)
  | [] => .ok []
  | .error err :: _ => .error err
  | .ok a :: es =>
      match exList es with
      | .ok as => .ok (a :: as)
      | .error err => .error err

/-- Embedding of `parallel_map(blfunc, zip(fit_cube, reshaped_cube))` (line 125):
apply the per-spectrum fit to every pixel's (masked, raw) spectrum pair,
collecting results by pixel index. -/
def dispatchFits (pf : Polyfit) (polyorder splineorder : Option ℕ) (sampling : ℕ)
    (x : List ℚ) (fitRows rawRows : List (List Val)) : Except BLErr (List (List Val)) :=
  exList ((fitRows.zip rawRows).map (fun pr => blfunc pf polyorder splineorder sampling x pr.1 pr.2))

/-- Embedding of `baseline_cube` (`first_look.py` lines 83-127): build the shared
x-axis, validate and apply the optional mask, fit every pixel's spectrum
pair, and reassemble the corrected cube. -/
def baseline_cube (pf : Polyfit) (cube : Cube) (polyorder : Option ℕ)
    (cubemask : Option Mask) (splineorder : Option ℕ) (sampling : ℕ) :
    Except BLErr Cube :=
  let x := xAxis cube
  let P := cube.Y * cube.X
  let reshaped := rows cube.S P cube.data
  match cubemask with
  | none =>
      (dispatchFits pf polyorder splineorder sampling x reshaped reshaped).map
        (reassemble cube.S cube.Y cube.X)
  | some m =>
      if m.dtype ≠ DType.dtBool then
        .error (BLErr.typeError "Cube mask *must* be a boolean array.")
      else if ¬(m.S = cube.S ∧ m.Y = cube.Y ∧ m.X = cube.X) then
        .error (BLErr.valueError "Mask shape does not match cube shape")
      else
        (dispatchFits pf polyorder splineorder sampling x
            (rows cube.S P (maskedData cube m)) reshaped).map
          (reassemble cube.S cube.Y cube.X)

/-- The exclusion mask built by the driver `baseline`
(`first_look.py` lines 140-142):
`cubemask = np.isfinite(cube)`, then `cubemask[index_clean,:,:] = False`,
then `cubemask = cubemask | np.isnan(cube)`.  Flat index `i` lies in
channel `i / (Y*X)`.  `True` = excluded from the fit. -/
def baselineMask (c : Cube) (indexClean : List ℕ) : List Bool :=
  (List.range c.data.length).map (fun i =>
    let v := c.data.getD i Val.nan
    let m1 := v.isfinite
    let m2 := if i / (c.Y * c.X) ∈ indexClean then false else m1
    m2 || v.isnan)

-- Decidable equality of fallible results, for concrete evaluations.
deriving instance DecidableEq for Except

/-- A concrete stand-in implementation of the external `np.polyfit`
collaborator, used to instantiate the theorems at concrete inputs. -/
def pf0 : Polyfit := fun _ _ _ => []

/-- Validity of the optional cube mask, as checked by `baseline_cube`
(lines 114-117): boolean dtype and the cube's shape. -/
def maskOk (c : Cube) : Option Mask → Prop
  | none => True
  | some m => m.dtype = DType.dtBool ∧ m.S = c.S ∧ m.Y = c.Y ∧ m.X = c.X

/-- The flat data actually fitted: the cube itself without a mask, the
NaN-masked working copy with one (lines 110-122). -/
def fitData (c : Cube) : Option Mask → List Val
  | none => c.data
  | some m => maskedData c m

/-- The cube whose pixel spectra are handed to the fitter as `yfit`. -/
def fitCube (c : Cube) (mo : Option Mask) : Cube :=
  ⟨c.S, c.Y, c.X, fitData c mo⟩

/-- The spectrum of spatial pixel `(y, x)` of a cube: the samples at flat
indices `s*(Y*X) + (y*X + x)` for `s < S`. -/
def spectrumAt (c : Cube) (y x : ℕ) : List Val :=
  (List.range c.S).map (fun s => c.data.getD (s * (c.Y * c.X) + (y * c.X + x)) Val.nan)

/-- Claim-side description (C3) of the downsampled y-values: element-wise
mean of the `s` interleaved phase groups taken from the prefix of the
good samples whose length is `ngood - ngood % s` (group `ii` holds the
prefix elements at indices congruent to `ii` modulo `s`). -/
def specSampledY (yfit : List Val) (s : ℕ) : List ℚ :=
  let good := goodVals yfit
  let pre := good.take (good.length - good.length % s)
  meanCols ((List.range s).map (fun ii =>
    (List.range pre.length).filterMap (fun i => if i % s = ii then pre[i]? else none)))

/-- Claim-side description (C3) of the subsampled x-values: every `s`-th
good x value starting at the integer (floor) offset `s / 2`, up to the
same prefix endpoint `ngood - ngood % s`. -/
def specSampledX (x : List ℚ) (yfit : List Val) (s : ℕ) : List ℚ :=
  let goodX := goodXs x yfit
  let endpoint := ngoodOf yfit - ngoodOf yfit % s
  (List.range endpoint).filterMap (fun i => if i % s = s / 2 then goodX[i]? else none)

/-- Claim C10's reading of the `baseline` mask: a sample is admitted into
the fit (mask entry `false`) iff its channel is in `index_clean` and its
value is finite. -/
def maskAdmitsIffCleanFinite (c : Cube) (clean : List ℕ) : Prop :=
  ∀ i, i < c.data.length →
    ((baselineMask c clean).getD i true = false ↔
      (i / (c.Y * c.X) ∈ clean ∧ (c.data.getD i Val.nan).isfinite = true))

section Helpers

/-- The good-value list and the good-sample count agree. -/
theorem goodVals_length (yfit : List Val) : (goodVals yfit).length = ngoodOf yfit := by
  induction yfit with
  | nil => rfl
  | cons v t ih =>
      cases v <;>
        simp [goodVals, ngoodOf, Val.toQ, Val.isfinite, List.filterMap_cons,
          List.filter_cons] <;>
      simpa [goodVals, ngoodOf] using ih

/-- Reading a mapped range at an in-range index. -/
theorem getD_map_range {α : Type} (n : ℕ) (f : ℕ → α) (i : ℕ) (d : α) (h : i < n) :
    ((List.range n).map f).getD i d = f i := by
  rw [List.getD_eq_getElem?_getD, List.getElem?_map]
  simp [List.getElem?_range, h]

/-- Mapping `getD` over the index range of a list reproduces the list. -/
theorem range_map_getD {α : Type} (l : List α) (d : α) :
    (List.range l.length).map (fun i => l.getD i d) = l := by
  apply List.ext_getElem
  · simp
  · intro i h1 h2
    simp only [List.getElem_map, List.getElem_range]
    rw [List.getD_eq_getElem?_getD, List.getElem?_eq_getElem h2]
    rfl

/-- An index below both factors addresses a flat position inside the
array. -/
theorem flat_index_lt {s S j P : ℕ} (hs : s < S) (hj : j < P) :
    s * P + j < S * P :=
  calc s * P + j < s * P + P := by omega
    _ = (s + 1) * P := by ring
    _ ≤ S * P := Nat.mul_le_mul_right P hs

/-- Row-major index arithmetic: recovering the row. -/
theorem flat_index_div {s j P : ℕ} (hj : j < P) : (s * P + j) / P = s := by
  rw [Nat.mul_comm, Nat.mul_add_div (Nat.pos_of_lt_add_right (Nat.lt_add_left _ hj)),
    Nat.div_eq_of_lt hj, Nat.add_zero]

/-- Row-major index arithmetic: recovering the column. -/
theorem flat_index_mod {s j P : ℕ} (hj : j < P) : (s * P + j) % P = j := by
  rw [Nat.mul_comm, Nat.mul_add_mod, Nat.mod_eq_of_lt hj]

/-- Successful collection of fallible results: every input position
succeeded with the corresponding output. -/
theorem exList_map_ok {α β : Type} (f : α → Except BLErr β) (l : List α) (r : List β)
    (h : exList (l.map f) = .ok r) :
    r.length = l.length ∧
      ∀ i (hi : i < l.length) (hr : i < r.length), f l[i] = .ok r[i] := by
  induction l generalizing r with
  | nil =>
      simp only [List.map_nil, exList] at h
      cases h
      exact ⟨rfl, fun i hi => by cases hi⟩
  | cons a t ih =>
      rw [List.map_cons] at h
      cases hfa : f a with
      | error e => rw [hfa] at h; simp only [exList] at h; cases h
      | ok b =>
          rw [hfa] at h
          simp only [exList] at h
          cases ht : exList (t.map f) with
          | error e => simp only [ht] at h; cases h
          | ok bs =>
              simp only [ht] at h
              cases h
              obtain ⟨hlen, hget⟩ := ih bs ht
              refine ⟨by simp [hlen], ?_⟩
              intro i hi hr
              cases i with
              | zero => simpa using hfa
              | succ n =>
                  simp only [List.getElem_cons_succ]
                  exact hget n (by simpa using hi) (by simpa using hr)

/-- Collecting over a nonempty list of uniformly failing calls yields
the failure. -/
theorem exList_map_error {α β : Type} (f : α → Except BLErr β) (l : List α) (e : BLErr)
    (hf : ∀ a ∈ l, f a = .error e) (hne : l ≠ []) :
    exList (l.map f) = .error e := by
  cases l with
  | nil => exact absurd rfl hne
  | cons a t =>
      simp only [List.map_cons]
      rw [hf a (List.mem_cons_self a t)]
      rfl

/-- A successful per-spectrum fit preserves the spectrum length (for a
matching x-axis). -/
theorem blfunc_ok_length (pf : Polyfit) (po so : Option ℕ) (samp : ℕ)
    (x : List ℚ) (yfit yreal out : List Val) (hx : x.length = yreal.length)
    (h : blfunc pf po so samp x yfit yreal = .ok out) :
    out.length = yreal.length := by
  cases po with
  | some p =>
      simp only [blfunc] at h
      split at h
      · cases h; rfl
      · cases h
        simp [List.length_zipWith, hx]
  | none =>
      cases so <;> simp only [blfunc] at h <;> cases h

/-- With a valid (or absent) mask, `baseline_cube` is the per-pixel fit
dispatch over the (masked, raw) spectrum rows followed by reassembly. -/
theorem baseline_cube_eq_dispatch (pf : Polyfit) (po so : Option ℕ) (samp : ℕ)
    (c : Cube) (mo : Option Mask) (hm : maskOk c mo) :
    baseline_cube pf c po mo so samp =
      (dispatchFits pf po so samp (xAxis c)
          (rows c.S (c.Y * c.X) (fitData c mo)) (rows c.S (c.Y * c.X) c.data)).map
        (reassemble c.S c.Y c.X) := by
  cases mo with
  | none => rfl
  | some m =>
      obtain ⟨hdt, hsh⟩ := hm
      simp only [baseline_cube, fitData]
      rw [if_neg (by simp [hdt]), if_neg (by simp [hsh.1, hsh.2.1, hsh.2.2])]

/-- Offset/step slice membership is congruence modulo the step. -/
theorem offset_mod_iff {a s i : ℕ} (ha : a < s) :
    (a ≤ i ∧ (i - a) % s = 0) ↔ i % s = a := by
  constructor
  · rintro ⟨hle, hmod⟩
    obtain ⟨k, hk⟩ := Nat.dvd_of_mod_eq_zero hmod
    have hi : i = a + s * k := by omega
    rw [hi, Nat.add_mul_mod_self_left, Nat.mod_eq_of_lt ha]
  · intro hmod
    have hle : a ≤ i := hmod ▸ Nat.mod_le i s
    have hdm := Nat.div_add_mod i s
    refine ⟨hle, ?_⟩
    have hsub : i - a = s * (i / s) := by omega
    rw [hsub, Nat.mul_mod_right]

/-- A Python offset slice is the modular index filter. -/
theorem pySlice_eq_modFilter {α : Type} (l : List α) (a s stop : ℕ) (ha : a < s) :
    pySlice l a stop s =
      (List.range stop).filterMap (fun i => if i % s = a then l[i]? else none) := by
  unfold pySlice
  refine List.filterMap_congr fun i _ => ?_
  rw [if_congr (offset_mod_iff ha) rfl rfl]

/-- Slicing up to an in-bounds endpoint equals filtering the endpoint
prefix of the list. -/
theorem pySlice_take {α : Type} (l : List α) (a s ep : ℕ) (ha : a < s) (hep : ep ≤ l.length) :
    pySlice l a ep s =
      (List.range (l.take ep).length).filterMap
        (fun i => if i % s = a then (l.take ep)[i]? else none) := by
  rw [pySlice_eq_modFilter l a s ep ha]
  have hlen : (l.take ep).length = ep := by simp [hep]
  rw [hlen]
  refine List.filterMap_congr fun i hi => ?_
  have hi' : i < ep := List.mem_range.mp hi
  rw [List.getElem?_take, if_pos hi']

/-- The downsampled y-values computed by the code (phase-group slices of
the good samples, averaged) equal the claim-side description. -/
theorem sampledY_eq_spec (yfit : List Val) (s : ℕ) :
    meanCols ((List.range s).map (fun ii =>
        pySlice (goodVals yfit) ii (ngoodOf yfit - ngoodOf yfit % s) s)) =
      specSampledY yfit s := by
  unfold specSampledY
  rw [← goodVals_length]
  congr 1
  refine List.map_congr_left fun ii hii => ?_
  exact pySlice_take (goodVals yfit) ii s _ (List.mem_range.mp hii) (Nat.sub_le _ _)

/-- The subsampled x-values computed by the code equal the claim-side
description. -/
theorem sampledX_eq_spec (x : List ℚ) (yfit : List Val) (s : ℕ) (hs : 1 ≤ s) :
    pySlice (goodXs x yfit) (s / 2) (ngoodOf yfit - ngoodOf yfit % s) s =
      specSampledX x yfit s := by
  unfold specSampledX
  exact pySlice_eq_modFilter _ _ _ _ (Nat.div_lt_self hs (by omega))

end Helpers

/-- C3: for every good-sample count `ngood > polyorder` and sampling
factor `s > 1`, the polynomial fit is performed with y-values the
element-wise mean of the `s` interleaved phase groups from the prefix of
the good samples of length `ngood - ngood % s`, and x-values every
`s`-th good x value from integer offset `s / 2` up to the same endpoint;
the returned spectrum is the raw one minus that fit evaluated on the
whole x-axis. -/
theorem gas_C3 (pf : Polyfit) (so : Option ℕ) (s p : ℕ) (x : List ℚ)
    (yfit yreal : List Val) (hs : 1 < s) (hp : p < ngoodOf yfit) :
    blfunc pf (some p) so s x yfit yreal =
      .ok (List.zipWith Val.sub yreal (x.map (fun xv => Val.fin (polyval
        (pf (specSampledX x yfit s) (specSampledY yfit s) p) xv)))) := by
  simp only [blfunc]
  rw [if_neg (not_le.mpr hp), sampledY_eq_spec, sampledX_eq_spec x yfit s (le_of_lt hs)]

/-- Witness for C3 at a concrete input: sampling 2, order 0, two good
samples. -/
theorem gas_C3_witness :
    ((1 : ℕ) < 2 ∧ 0 < ngoodOf [Val.fin 3, Val.fin 4]) ∧
    blfunc pf0 (some 0) none 2 [0, 1] [Val.fin 3, Val.fin 4] [Val.fin 5, Val.fin 7] =
      .ok (List.zipWith Val.sub [Val.fin 5, Val.fin 7]
        (([0, 1] : List ℚ).map (fun xv => Val.fin (polyval
          (pf0 (specSampledX [0, 1] [Val.fin 3, Val.fin 4] 2)
            (specSampledY [Val.fin 3, Val.fin 4] 2) 0) xv)))) :=
  ⟨⟨by decide, by decide⟩,
    gas_C3 pf0 none 2 0 [0, 1] [Val.fin 3, Val.fin 4] [Val.fin 5, Val.fin 7]
      (by decide) (by decide)⟩

/-- C1 evaluated on the code: the polynomial half holds (an
underdetermined polynomial fit returns the raw spectrum unchanged), but
the spline half fails: with `splineorder = 3` and `ngood = 0 ≤ 3` the
function does not return the raw spectrum — it raises `NameError`,
because line 59 evaluates the undefined name `scipyOK` before the
`ngood` check can run. -/
theorem gas_C1_code_eval :
    blfunc pf0 (some 2) none 1 [0, 1] [Val.nan, Val.fin 3] [Val.fin 5, Val.fin 7] =
      .ok [Val.fin 5, Val.fin 7] ∧
    blfunc pf0 none (some 3) 1 [0, 1] [Val.nan, Val.nan] [Val.fin 5, Val.fin 7] =
      .error BLErr.nameError :=
  ⟨rfl, rfl⟩

/-- C6: whenever a spline order is supplied (and no polynomial order,
so the spline configuration governs) the per-spectrum fit function
raises an error, for every spectrum pair and x-axis — in particular for
spline orders outside `{1, 2, 3, 4}`.  (The error actually raised is
`NameError` from the undefined `scipyOK`, not the order-validation
`ValueError`; the claim only requires that an error is raised.) -/
theorem gas_C6 (pf : Polyfit) (samp : ℕ) (x : List ℚ) (yfit yreal : List Val)
    (k : ℕ) (hk : k < 1 ∨ 4 < k) :
    ∃ e, blfunc pf none (some k) samp x yfit yreal = .error e :=
  ⟨BLErr.nameError, rfl⟩

/-- Witness for C6: spline order 7, on data whose good-sample count (0)
would otherwise trigger the silent no-op fallback. -/
theorem gas_C6_witness :
    ((7 : ℕ) < 1 ∨ 4 < 7) ∧
    ∃ e, blfunc pf0 none (some 7) 1 [0] [Val.nan] [Val.fin 2] = .error e :=
  ⟨by decide, gas_C6 pf0 1 [0] [Val.nan] [Val.fin 2] 7 (by decide)⟩

/-- C7 evaluated on the code: in the polynomial branch the corrected
spectrum is the raw spectrum minus the fitted model evaluated at every
x-axis sample (bad samples included), but in the spline branch no
corrected spectrum is ever produced: with `splineorder = 1` and
`ngood = 3 > 1` (no sizing problem), the call raises `NameError` from
the undefined `scipyOK` instead of fitting. -/
theorem gas_C7_code_eval :
    blfunc pf0 none (some 1) 1 [0, 1, 2]
        [Val.fin 1, Val.fin 2, Val.fin 3] [Val.fin 1, Val.fin 2, Val.fin 3] =
      .error BLErr.nameError ∧
    blfunc pf0 (some 0) none 1 [0, 1] [Val.fin 3, Val.fin 4] [Val.fin 5, Val.nan] =
      .ok (List.zipWith Val.sub [Val.fin 5, Val.nan]
        (([0, 1] : List ℚ).map (fun xv => Val.fin (polyval (pf0 [] [] 0) xv)))) :=
  ⟨rfl, rfl⟩

/-- C8 evaluated on the code: an input where the good-sample count (2)
exceeds the spline order (1) but the downsampled sequence is empty
(sampling 3), so the claimed sizing error should fire — instead the call
raises `NameError` (undefined `scipyOK`), which is not the sizing
`ValueError` the claim requires. -/
theorem gas_C8_code_eval :
    1 < ngoodOf [Val.fin 1, Val.fin 2, Val.nan, Val.nan] ∧
    (meanCols ((List.range 3).map (fun ii =>
        pySlice (goodVals [Val.fin 1, Val.fin 2, Val.nan, Val.nan]) ii
          (ngoodOf [Val.fin 1, Val.fin 2, Val.nan, Val.nan] -
            ngoodOf [Val.fin 1, Val.fin 2, Val.nan, Val.nan] % 3) 3))).length ≤ 1 ∧
    blfunc pf0 none (some 1) 3 [0, 1, 2, 3]
        [Val.fin 1, Val.fin 2, Val.nan, Val.nan] [Val.fin 1, Val.fin 2, Val.nan, Val.nan] =
      .error BLErr.nameError ∧
    BLErr.nameError ≠
      BLErr.valueError "Sampling is too sparse.  Use finer sampling or decrease the spline order." :=
  ⟨by decide, by decide, rfl, fun h => BLErr.noConfusion h⟩

/-- C4: with a supplied mask, a non-boolean mask dtype makes
`baseline_cube` raise the type error, and (with a boolean dtype) a shape
mismatch makes it raise the shape error; either way the result is the
same for every fitter implementation, model order, spline order and
sampling factor, so no per-pixel fit is dispatched or attempted. -/
theorem gas_C4 (pf : Polyfit) (c : Cube) (po so : Option ℕ) (samp : ℕ) (m : Mask) :
    (m.dtype ≠ DType.dtBool →
      baseline_cube pf c po (some m) so samp =
        .error (BLErr.typeError "Cube mask *must* be a boolean array.")) ∧
    (m.dtype = DType.dtBool → ¬(m.S = c.S ∧ m.Y = c.Y ∧ m.X = c.X) →
      baseline_cube pf c po (some m) so samp =
        .error (BLErr.valueError "Mask shape does not match cube shape")) := by
  constructor
  · intro hdt
    simp only [baseline_cube]
    rw [if_pos hdt]
  · intro hdt hsh
    simp only [baseline_cube]
    rw [if_neg (by simp [hdt]), if_pos hsh]

/-- Witness for C4: a float-typed mask and a wrong-shaped boolean mask
each raise their error on a concrete 1x1x1 cube. -/
theorem gas_C4_witness :
    baseline_cube pf0 ⟨1, 1, 1, [Val.fin 3]⟩ (some 1)
        (some ⟨DType.dtFloat64, 1, 1, 1, [false]⟩) none 1 =
      .error (BLErr.typeError "Cube mask *must* be a boolean array.") ∧
    baseline_cube pf0 ⟨1, 1, 1, [Val.fin 3]⟩ (some 1)
        (some ⟨DType.dtBool, 2, 1, 1, [false, false]⟩) none 1 =
      .error (BLErr.valueError "Mask shape does not match cube shape") :=
  ⟨(gas_C4 pf0 ⟨1, 1, 1, [Val.fin 3]⟩ (some 1) none 1
      ⟨DType.dtFloat64, 1, 1, 1, [false]⟩).1 (by decide),
   (gas_C4 pf0 ⟨1, 1, 1, [Val.fin 3]⟩ (some 1) none 1
      ⟨DType.dtBool, 2, 1, 1, [false, false]⟩).2 rfl (by decide)⟩

/-- C5 counterexample: `baseline_cube` invoked with neither a polynomial
nor a spline order on a cube with zero spatial pixels returns
successfully — no configuration error is raised at all, because the
missing-order check lives inside the dispatched per-pixel function and
zero per-pixel fits are dispatched. -/
theorem gas_C5_counterexample :
    baseline_cube pf0 ⟨1, 0, 1, []⟩ none none none 1 = .ok ⟨1, 0, 1, []⟩ ∧
    ∀ e, baseline_cube pf0 ⟨1, 0, 1, []⟩ none none none 1 ≠ .error e := by
  have h1 : baseline_cube pf0 ⟨1, 0, 1, []⟩ none none none 1 = .ok ⟨1, 0, 1, []⟩ := rfl
  exact ⟨h1, fun e he => by rw [h1] at he; cases he⟩

/-- C5 (amended): with neither order provided, every per-spectrum fit
call raises the configuration error, and `baseline_cube` (without a
mask) propagates it as a fatal error for every cube with at least one
spatial pixel; the error arises inside the dispatched per-pixel fits,
not before dispatch. -/
theorem gas_C5_amended (pf : Polyfit) (samp : ℕ) (x : List ℚ) (yfit yreal : List Val)
    (c : Cube) (hpix : 0 < c.Y * c.X) :
    blfunc pf none none samp x yfit yreal =
      .error (BLErr.valueError "Must provide polyorder or splineorder") ∧
    baseline_cube pf c none none none samp =
      .error (BLErr.valueError "Must provide polyorder or splineorder") := by
  refine ⟨rfl, ?_⟩
  rw [baseline_cube_eq_dispatch pf none none samp c none trivial]
  simp only [dispatchFits, fitData]
  have hne : (rows c.S (c.Y * c.X) c.data).zip (rows c.S (c.Y * c.X) c.data) ≠ [] := by
    apply List.ne_nil_of_length_pos
    simpa [rows] using hpix
  rw [exList_map_error (fun pr => blfunc pf none none samp (xAxis c) pr.1 pr.2) _
    (BLErr.valueError "Must provide polyorder or splineorder") (fun pr _ => rfl) hne]
  rfl

/-- Witness for C5 (amended) on a 1x1x1 cube. -/
theorem gas_C5_amended_witness :
    0 < 1 * 1 ∧
    blfunc pf0 none none 1 [0] [Val.fin 1] [Val.fin 1] =
      .error (BLErr.valueError "Must provide polyorder or splineorder") ∧
    baseline_cube pf0 ⟨1, 1, 1, [Val.fin 3]⟩ none none none 1 =
      .error (BLErr.valueError "Must provide polyorder or splineorder") :=
  ⟨by decide,
   (gas_C5_amended pf0 1 [0] [Val.fin 1] [Val.fin 1] ⟨1, 1, 1, [Val.fin 3]⟩ (by decide)).1,
   (gas_C5_amended pf0 1 [0] [Val.fin 1] [Val.fin 1] ⟨1, 1, 1, [Val.fin 3]⟩ (by decide)).2⟩

/-- C9: with a valid mask, `baseline_cube` fits the pixel rows of a
masked working copy — in which exactly the masked samples are NaN and
every other sample keeps its original value — while the raw reference
rows it subtracts from are taken from the original, unmasked cube data. -/
theorem gas_C9 (pf : Polyfit) (po so : Option ℕ) (samp : ℕ) (c : Cube) (m : Mask)
    (hdt : m.dtype = DType.dtBool) (hS : m.S = c.S) (hY : m.Y = c.Y) (hX : m.X = c.X) :
    baseline_cube pf c po (some m) so samp =
      (dispatchFits pf po so samp (xAxis c)
          (rows c.S (c.Y * c.X) (maskedData c m)) (rows c.S (c.Y * c.X) c.data)).map
        (reassemble c.S c.Y c.X) ∧
    ∀ i (hi : i < c.data.length) (hi2 : i < m.data.length)
        (hi3 : i < (maskedData c m).length),
      (maskedData c m)[i] = if m.data[i] then Val.nan else c.data[i] := by
  constructor
  · exact baseline_cube_eq_dispatch pf po so samp c (some m) ⟨hdt, hS, hY, hX⟩
  · intro i hi hi2 hi3
    simp only [maskedData]
    rw [List.getElem_zipWith]

/-- Witness for C9: a 2x1x1 cube with the second sample masked. -/
theorem gas_C9_witness :
    baseline_cube pf0 ⟨2, 1, 1, [Val.fin 3, Val.fin 4]⟩ (some 1)
        (some ⟨DType.dtBool, 2, 1, 1, [false, true]⟩) none 1 =
      (dispatchFits pf0 (some 1) none 1 (xAxis ⟨2, 1, 1, [Val.fin 3, Val.fin 4]⟩)
          (rows 2 (1 * 1) (maskedData ⟨2, 1, 1, [Val.fin 3, Val.fin 4]⟩
            ⟨DType.dtBool, 2, 1, 1, [false, true]⟩))
          (rows 2 (1 * 1) [Val.fin 3, Val.fin 4])).map (reassemble 2 1 1) ∧
    ∀ i (hi : i < ([Val.fin 3, Val.fin 4] : List Val).length)
        (hi2 : i < ([false, true] : List Bool).length)
        (hi3 : i < (maskedData ⟨2, 1, 1, [Val.fin 3, Val.fin 4]⟩
          ⟨DType.dtBool, 2, 1, 1, [false, true]⟩).length),
      (maskedData ⟨2, 1, 1, [Val.fin 3, Val.fin 4]⟩
        ⟨DType.dtBool, 2, 1, 1, [false, true]⟩)[i] =
        if ([false, true] : List Bool)[i] then Val.nan
        else ([Val.fin 3, Val.fin 4] : List Val)[i] :=
  gas_C9 pf0 (some 1) none 1 ⟨2, 1, 1, [Val.fin 3, Val.fin 4]⟩
    ⟨DType.dtBool, 2, 1, 1, [false, true]⟩ rfl rfl rfl rfl

/-- C10 counterexample: on the cube `(2,1,1)` holding `[0, +Inf]` with
`index_clean = [0]`, the mask admits the `+Inf` sample at channel 1 even
though channel 1 is not in `index_clean` and the value is not finite —
refuting the claimed admit-iff-clean-and-finite characterisation. -/
theorem gas_C10_counterexample :
    ¬ maskAdmitsIffCleanFinite ⟨2, 1, 1, [Val.fin 0, Val.pinf]⟩ [0] := by
  intro h
  have h2 := (h 1 (by decide)).mp (by decide)
  exact absurd h2.2 (by decide)

/-- C10 (amended): the mask built by `baseline` excludes exactly the NaN
samples and the finite samples whose channel is outside `index_clean`;
equivalently, it admits a sample iff the sample is not NaN and (its
channel is in `index_clean` or its value is non-finite).  In particular
±Inf samples are admitted by the mask at every channel (the fitter's own
finiteness mask drops them later). -/
theorem gas_C10_amended (c : Cube) (clean : List ℕ) (i : ℕ) (hi : i < c.data.length) :
    ((baselineMask c clean).getD i true = false ↔
      ((c.data.getD i Val.nan).isnan = false ∧
        (i / (c.Y * c.X) ∈ clean ∨ (c.data.getD i Val.nan).isfinite = false))) := by
  unfold baselineMask
  rw [getD_map_range _ _ _ _ hi]
  generalize c.data.getD i Val.nan = v
  by_cases hm : i / (c.Y * c.X) ∈ clean <;> cases v <;>
    simp [hm, Val.isfinite, Val.isnan]

/-- Witness for C10 (amended), at the admitted `+Inf` sample of the
counterexample cube. -/
theorem gas_C10_amended_witness :
    1 < ((⟨2, 1, 1, [Val.fin 0, Val.pinf]⟩ : Cube).data).length ∧
    ((baselineMask ⟨2, 1, 1, [Val.fin 0, Val.pinf]⟩ [0]).getD 1 true = false ↔
      (((⟨2, 1, 1, [Val.fin 0, Val.pinf]⟩ : Cube).data.getD 1 Val.nan).isnan = false ∧
        (1 / ((⟨2, 1, 1, [Val.fin 0, Val.pinf]⟩ : Cube).Y *
            (⟨2, 1, 1, [Val.fin 0, Val.pinf]⟩ : Cube).X) ∈ [0] ∨
          ((⟨2, 1, 1, [Val.fin 0, Val.pinf]⟩ : Cube).data.getD 1 Val.nan).isfinite = false))) :=
  ⟨by decide, gas_C10_amended ⟨2, 1, 1, [Val.fin 0, Val.pinf]⟩ [0] 1 (by decide)⟩

/-- C2: whenever `baseline_cube` succeeds, the output cube has exactly
the input's shape `(S, Y, X)`, and the output spectrum at every spatial
pixel `(y, x)` is the per-spectrum fit function's result on that same
pixel's (masked, raw) spectrum pair — the flatten of the two spatial
axes followed by reassembly is the identity on the spatial layout. -/
theorem gas_C2 (pf : Polyfit) (po so : Option ℕ) (samp : ℕ) (c : Cube)
    (mo : Option Mask) (out : Cube) (hm : maskOk c mo)
    (hok : baseline_cube pf c po mo so samp = .ok out) :
    (out.S = c.S ∧ out.Y = c.Y ∧ out.X = c.X) ∧
    ∀ y x, y < c.Y → x < c.X →
      blfunc pf po so samp (xAxis c) (spectrumAt (fitCube c mo) y x) (spectrumAt c y x) =
        .ok (spectrumAt out y x) := by
  rw [baseline_cube_eq_dispatch pf po so samp c mo hm] at hok
  simp only [dispatchFits] at hok
  cases hd : exList (((rows c.S (c.Y * c.X) (fitData c mo)).zip
      (rows c.S (c.Y * c.X) c.data)).map
      (fun pr => blfunc pf po so samp (xAxis c) pr.1 pr.2)) with
  | error e => rw [hd] at hok; simp only [Except.map] at hok; cases hok
  | ok r =>
      rw [hd] at hok
      simp only [Except.map] at hok
      obtain rfl : reassemble c.S c.Y c.X r = out := by injection hok
      obtain ⟨hrlen, hrget⟩ := exList_map_ok _ _ _ hd
      have hziplen : ((rows c.S (c.Y * c.X) (fitData c mo)).zip
          (rows c.S (c.Y * c.X) c.data)).length = c.Y * c.X := by
        simp [rows]
      refine ⟨⟨rfl, rfl, rfl⟩, ?_⟩
      intro y x hy hx
      have hj : y * c.X + x < c.Y * c.X := flat_index_lt hy hx
      have hjz : y * c.X + x < ((rows c.S (c.Y * c.X) (fitData c mo)).zip
          (rows c.S (c.Y * c.X) c.data)).length := by rw [hziplen]; exact hj
      have hjr : y * c.X + x < r.length := by rw [hrlen, hziplen]; exact hj
      have hjrowf : y * c.X + x < (rows c.S (c.Y * c.X) (fitData c mo)).length := by
        simpa [rows] using hj
      have hjrowr : y * c.X + x < (rows c.S (c.Y * c.X) c.data).length := by
        simpa [rows] using hj
      have hfrow : (rows c.S (c.Y * c.X) (fitData c mo))[y * c.X + x] =
          spectrumAt (fitCube c mo) y x := by
        simp [rows, spectrumAt, fitCube]
      have hrrow : (rows c.S (c.Y * c.X) c.data)[y * c.X + x] = spectrumAt c y x := by
        simp [rows, spectrumAt]
      have hfit : blfunc pf po so samp (xAxis c) (spectrumAt (fitCube c mo) y x)
          (spectrumAt c y x) = .ok (r[y * c.X + x]) := by
        have hgot := hrget (y * c.X + x) hjz hjr
        rw [List.getElem_zip] at hgot
        simpa [hfrow, hrrow] using hgot
      have hrjlen : (r[y * c.X + x]).length = c.S := by
        have h1 := blfunc_ok_length pf po so samp (xAxis c)
          (spectrumAt (fitCube c mo) y x) (spectrumAt c y x) (r[y * c.X + x])
          (by simp only [xAxis, spectrumAt, List.length_map, List.length_range]) hfit
        simpa only [spectrumAt, List.length_map, List.length_range] using h1
      have hout : spectrumAt (reassemble c.S c.Y c.X r) y x = r[y * c.X + x] := by
        have hstep : ∀ s_1, s_1 < c.S →
            ((List.range (c.S * (c.Y * c.X))).map
              (fun i => (r.getD (i % (c.Y * c.X)) []).getD (i / (c.Y * c.X)) Val.nan)).getD
                (s_1 * (c.Y * c.X) + (y * c.X + x)) Val.nan =
              (r[y * c.X + x]).getD s_1 Val.nan := by
          intro s_1 hs
          rw [getD_map_range _ _ _ _ (flat_index_lt hs hj)]
          rw [flat_index_mod hj, flat_index_div hj]
          rw [List.getD_eq_getElem?_getD r, List.getElem?_eq_getElem hjr]
          rfl
        calc spectrumAt (reassemble c.S c.Y c.X r) y x
            = (List.range c.S).map (fun s_1 => (r[y * c.X + x]).getD s_1 Val.nan) := by
              simp only [spectrumAt, reassemble]
              exact List.map_congr_left fun s_1 hs => hstep s_1 (List.mem_range.mp hs)
          _ = r[y * c.X + x] := by
              rw [show c.S = (r[y * c.X + x]).length from hrjlen.symm]
              exact range_map_getD _ _
      rw [hout]
      exact hfit

/-- Witness for C2: a 1x1x1 cube with a no-op polynomial fit. -/
theorem gas_C2_witness :
    maskOk ⟨1, 1, 1, [Val.fin 3]⟩ none ∧
    blfunc pf0 (some 5) none 1 (xAxis ⟨1, 1, 1, [Val.fin 3]⟩)
        (spectrumAt (fitCube ⟨1, 1, 1, [Val.fin 3]⟩ none) 0 0)
        (spectrumAt ⟨1, 1, 1, [Val.fin 3]⟩ 0 0) =
      .ok (spectrumAt ⟨1, 1, 1, [Val.fin 3]⟩ 0 0) :=
  ⟨trivial,
    (gas_C2 pf0 (some 5) none 1 ⟨1, 1, 1, [Val.fin 3]⟩ none ⟨1, 1, 1, [Val.fin 3]⟩
      trivial (by decide)).2 0 0 (by decide) (by decide)⟩

end GAS
